import Mathlib

/-!
# Bookmark helper of Explorer++: comparison policy, add/edit workflows, open in new tabs

Shallow embedding of `Explorer++/Explorer++/BookmarkHelper.cpp`.

Objects of class `BookmarkItem` live in an object store; a `BookmarkItem *` (and the
owning `std::unique_ptr<BookmarkItem>` held in a child vector) is the position of the
object in that store.  Functions that only read an item through its getters take the
item itself.
-/

namespace BookmarkHelper

/-! ## Platform types -/

/-- A `std::wstring`: the sequence of its UTF-16 code units. -/
abbrev wstring := List Nat

/-- The Win32 `FILETIME` structure: a 64-bit count split into two `DWORD` halves; every
use reduces a half modulo `2 ^ 32`. -/
structure FILETIME where
  dwLowDateTime : Nat
  dwHighDateTime : Nat
  deriving DecidableEq, Repr

/-- The 64-bit value a `FILETIME` denotes. -/
def FILETIME.toUInt64 (ft : FILETIME) : Nat :=
  (ft.dwHighDateTime % 2 ^ 32) * 2 ^ 32 + ft.dwLowDateTime % 2 ^ 32

/-- The Win32 function `CompareFileTime`: the high halves decide, then the low halves;
the result is `-1`, `0` or `1`. -/
def CompareFileTime (lpFileTime1 lpFileTime2 : FILETIME) : Int :=
  if lpFileTime1.dwHighDateTime % 2 ^ 32 < lpFileTime2.dwHighDateTime % 2 ^ 32 then -1
  else if lpFileTime2.dwHighDateTime % 2 ^ 32 < lpFileTime1.dwHighDateTime % 2 ^ 32 then 1
  else if lpFileTime1.dwLowDateTime % 2 ^ 32 < lpFileTime2.dwLowDateTime % 2 ^ 32 then -1
  else if lpFileTime2.dwLowDateTime % 2 ^ 32 < lpFileTime1.dwLowDateTime % 2 ^ 32 then 1
  else 0

/-- The member `std::wstring::compare(const std::wstring &)`: code units are compared
pairwise up to the shorter length, then the lengths decide.  The C++ standard fixes only
the sign of the result; `-1`, `0`, `1` stand for negative, zero and positive. -/
def wstring_compare : wstring → wstring → Int
  | [], [] => 0
  | [], _ :: _ => -1
  | _ :: _, [] => 1
  | a :: as, b :: bs =>
    if a < b then -1 else if b < a then 1 else wstring_compare as bs

/-! ## Bookmark items -/

/-- A pointer to a `BookmarkItem`: the position of the object in the store. -/
abbrev ItemPtr := Nat

/-- The enumeration `BookmarkItem::Type`. -/
inductive ItemType where
  | Folder
  | Bookmark
  deriving DecidableEq, Repr

/-- Modelled from the spec: class `BookmarkItem` (`BookmarkItem.h` is not among the
sources): "a tagged node (bookmark or folder) with name, optional location, timestamps,
and parent/child links". -/
structure BookmarkItem where
  type : ItemType
  name : wstring
  location : Option wstring
  dateCreated : FILETIME
  dateModified : FILETIME
  parent : Option ItemPtr
  children : List ItemPtr
  deriving DecidableEq, Repr

namespace BookmarkItem

/-! The getters of `BookmarkItem`, none of which is among the sources: each reads the part
of the node the spec names; `IsFolder` and `IsBookmark` test the tag. -/

def GetType (item : BookmarkItem) : ItemType := item.type

def IsFolder (item : BookmarkItem) : Bool := item.type = ItemType.Folder

def IsBookmark (item : BookmarkItem) : Bool := item.type = ItemType.Bookmark

def GetName (item : BookmarkItem) : wstring := item.name

/-- The getter returns a `std::wstring`; an item without a location yields the empty string. -/
def GetLocation (item : BookmarkItem) : wstring := item.location.getD []

def GetDateCreated (item : BookmarkItem) : FILETIME := item.dateCreated

def GetDateModified (item : BookmarkItem) : FILETIME := item.dateModified

def GetParent (item : BookmarkItem) : Option ItemPtr := item.parent

def GetChildren (item : BookmarkItem) : List ItemPtr := item.children

/-- Modelled from the spec: `BookmarkItem::GetChildIndex` (not among the sources), which
`EditBookmarkItem` reads as `*parent->GetChildIndex(item)`: the position of `child` in
the child vector of the item ("parent/child links", "index-based positioning"), empty
when `child` is not there. -/
def GetChildIndex (item : BookmarkItem) (child : ItemPtr) : Option Nat :=
  if item.children.indexOf child < item.children.length then
    some (item.children.indexOf child)
  else none

end BookmarkItem

/-! ## Type tests of the helper -/

/-- `BookmarkHelper::IsFolder`, on the object the `std::unique_ptr` owns. -/
def IsFolder (bookmarkItem : BookmarkItem) : Bool := bookmarkItem.IsFolder

/-- `BookmarkHelper::IsBookmark`, on the object the `std::unique_ptr` owns. -/
def IsBookmark (bookmarkItem : BookmarkItem) : Bool := bookmarkItem.IsBookmark

/-! ## Sorting -/

/-- The enumeration `BookmarkHelper::SortMode_t`. -/
inductive SortMode_t where
  | SM_NAME
  | SM_LOCATION
  | SM_DATE_ADDED
  | SM_DATE_MODIFIED
  deriving DecidableEq, Repr

/-- The callback `SortByName`. -/
def SortByName (firstItem secondItem : BookmarkItem) : Int :=
  wstring_compare firstItem.GetName secondItem.GetName

/-- The callback `SortByLocation`. -/
def SortByLocation (firstItem secondItem : BookmarkItem) : Int :=
  if firstItem.GetType = ItemType.Folder ∧ secondItem.GetType = ItemType.Folder then 0
  else if firstItem.GetType = ItemType.Folder ∧ secondItem.GetType = ItemType.Bookmark then -1
  else if firstItem.GetType = ItemType.Bookmark ∧ secondItem.GetType = ItemType.Folder then 1
  else wstring_compare firstItem.GetLocation secondItem.GetLocation

/-- The callback `SortByDateAdded`. -/
def SortByDateAdded (firstItem secondItem : BookmarkItem) : Int :=
  CompareFileTime firstItem.GetDateCreated secondItem.GetDateCreated

/-- The callback `SortByDateModified`. -/
def SortByDateModified (firstItem secondItem : BookmarkItem) : Int :=
  CompareFileTime firstItem.GetDateModified secondItem.GetDateModified

/-- `BookmarkHelper::Sort` (the bare name is reserved in Lean).  The `default:` branch
of the `switch` has no counterpart: `SortMode_t` has the four modes only. -/
def Sort_ (SortMode : SortMode_t) (firstItem secondItem : BookmarkItem) : Int :=
  if firstItem.GetType = ItemType.Folder ∧ secondItem.GetType = ItemType.Bookmark then -1
  else if firstItem.GetType = ItemType.Bookmark ∧ secondItem.GetType = ItemType.Folder then 1
  else
    match SortMode with
    | SortMode_t.SM_NAME => SortByName firstItem secondItem
    | SortMode_t.SM_LOCATION => SortByLocation firstItem secondItem
    | SortMode_t.SM_DATE_ADDED => SortByDateAdded firstItem secondItem
    | SortMode_t.SM_DATE_MODIFIED => SortByDateModified firstItem secondItem

/-- The comparison of two 64-bit values as the claim on `SM_DATE_ADDED` and
`SM_DATE_MODIFIED` words it: `-1`, `0` or `1`. -/
def compare64 (x y : Nat) : Int :=
  if x < y then -1 else if x = y then 0 else 1

/-- The integer `r` reports the lexicographic comparison of `s` with `t`, as the claim on
`SM_NAME` and `SM_LOCATION` words it: `r` is negative when `s` comes first in the
lexicographic order, zero when the strings are equal, positive when `t` comes first. -/
def IsLexComparison (r : Int) (s t : wstring) : Prop :=
  (r < 0 ↔ List.Lex (fun x y : Nat => x < y) s t) ∧
  (r = 0 ↔ s = t) ∧
  (0 < r ↔ List.Lex (fun x y : Nat => x < y) t s)

/-! ## The bookmark tree -/

/-- An invocation of one of the two operations of `BookmarkTree` used by the helper. -/
inductive TreeCall where
  | AddBookmarkItem (parent : ItemPtr) (bookmarkItem : BookmarkItem) (index : Nat)
  | MoveBookmarkItem (bookmarkItem : ItemPtr) (newParent : ItemPtr) (index : Nat)
  deriving DecidableEq, Repr

/-- Modelled from the spec: class `BookmarkTree` (`BookmarkTree.h` is not among the
sources): it "owns the hierarchy; exposes add/move operations with index-based
positioning".  `items` is the object store, the pointer `p` designating `items[p]`;
`calls` records the add and move operations invoked so far. -/
structure BookmarkTree where
  items : List BookmarkItem
  calls : List TreeCall
  deriving DecidableEq, Repr

namespace BookmarkTree

/-- The object a pointer designates; `none` for a pointer to no live object. -/
def deref (t : BookmarkTree) (p : ItemPtr) : Option BookmarkItem := t.items[p]?

/-- Modelled from the spec: `BookmarkTree::AddBookmarkItem(parent, bookmarkItem, index)`,
an add operation "with index-based positioning": the tree takes ownership of the item,
which becomes the child at position `index` of `parent`; the children from that position
on shift by one.  An index past the end of the child vector is outside its domain. -/
def AddBookmarkItem (t : BookmarkTree) (parent : ItemPtr) (bookmarkItem : BookmarkItem)
    (index : Nat) : Option BookmarkTree :=
  match t.deref parent with
  | none => none
  | some folder =>
    if index ≤ folder.children.length then
      some
        { items :=
            t.items.set parent
                { folder with children := folder.children.insertIdx index t.items.length } ++
              [{ bookmarkItem with parent := some parent }]
          calls := t.calls ++ [TreeCall.AddBookmarkItem parent bookmarkItem index] }
    else none

/-- The store after `bookmarkItem` is taken out of the child vector of its parent. -/
def unlink (items : List BookmarkItem) (bookmarkItem : ItemPtr) (parent : Option ItemPtr) :
    List BookmarkItem :=
  match parent with
  | none => items
  | some oldParent =>
    match items[oldParent]? with
    | none => items
    | some oldFolder =>
      items.set oldParent { oldFolder with children := oldFolder.children.erase bookmarkItem }

/-- Modelled from the spec: `BookmarkTree::MoveBookmarkItem(bookmarkItem, newParent, index)`,
a move operation "with index-based positioning" ("tree reparenting"): the item leaves the
child vector of its parent, becomes the child at position `index` of `newParent`, and its
parent link is set to `newParent`. -/
def MoveBookmarkItem (t : BookmarkTree) (bookmarkItem newParent : ItemPtr) (index : Nat) :
    Option BookmarkTree :=
  match t.deref bookmarkItem with
  | none => none
  | some item =>
    let items1 := unlink t.items bookmarkItem item.parent
    match items1[newParent]? with
    | none => none
    | some folder =>
      if index ≤ folder.children.length then
        let items2 :=
          items1.set newParent
            { folder with children := folder.children.insertIdx index bookmarkItem }
        match items2[bookmarkItem]? with
        | none => none
        | some moved =>
          some
            { items := items2.set bookmarkItem { moved with parent := some newParent }
              calls := t.calls ++ [TreeCall.MoveBookmarkItem bookmarkItem newParent index] }
      else none

end BookmarkTree

/-! ## The add and edit workflows -/

/-- Modelled from the spec: the constant `CBaseDialog::RETURN_OK` (`Helper/BaseDialog.h` is
not among the sources), the result of a confirmed dialog, on which the workflows "commit
results".  The workflows only test a dialog result for equality with it. -/
def RETURN_OK : Int := 1

/-- What `CAddBookmarkDialog::ShowModalDialog` leaves behind: the value it returns, the
folder written through `&selectedParentFolder` (`none` for `nullptr`), and the tree it was
given, as it is when the dialog closes. -/
structure DialogOutcome where
  res : Int
  selectedParentFolder : Option ItemPtr
  bookmarkTree : BookmarkTree

/-- The collaborators of the two workflows, none of which is among the sources. -/
structure Collaborators where
  /-- The display name of the current entry of the selected tab. -/
  displayName : wstring
  /-- The directory of the selected tab. -/
  directory : wstring
  /-- The resource string `IDS_BOOKMARKS_NEWBOOKMARKFOLDER`. -/
  newBookmarkFolder : wstring
  /-- The constructor `BookmarkItem(guid, name, location)`. -/
  makeBookmarkItem : Option wstring → wstring → Option wstring → BookmarkItem
  /-- The modal dialog run on an item not yet in the tree; it also yields the item as the
  dialog leaves it. -/
  showAddDialog : BookmarkTree → BookmarkItem → DialogOutcome × BookmarkItem
  /-- The modal dialog run on an item of the tree. -/
  showEditDialog : BookmarkTree → ItemPtr → DialogOutcome

/-- The item `BookmarkHelper::AddBookmarkItem` builds before it opens the dialog. -/
def newBookmarkItem (env : Collaborators) (type : ItemType) : BookmarkItem :=
  if type = ItemType.Bookmark then
    env.makeBookmarkItem none env.displayName (some env.directory)
  else
    env.makeBookmarkItem none env.newBookmarkFolder none

/-- `BookmarkHelper::AddBookmarkItem`; `none` stands for the failed assertion and for the
use of a pointer to no live object. -/
def AddBookmarkItem (env : Collaborators) (bookmarkTree : BookmarkTree) (type : ItemType) :
    Option BookmarkTree :=
  let shown := env.showAddDialog bookmarkTree (newBookmarkItem env type)
  if shown.1.res = RETURN_OK then
    match shown.1.selectedParentFolder with
    | none => none
    | some selectedParentFolder =>
      match shown.1.bookmarkTree.deref selectedParentFolder with
      | none => none
      | some folder =>
        shown.1.bookmarkTree.AddBookmarkItem selectedParentFolder shown.2
          folder.GetChildren.length
  else some shown.1.bookmarkTree

/-- The index `BookmarkHelper::EditBookmarkItem` computes for the move. -/
def editNewIndex (t : BookmarkTree) (bookmarkItem selectedParentFolder : ItemPtr)
    (item : BookmarkItem) : Option Nat :=
  if some selectedParentFolder = item.GetParent then
    match t.deref selectedParentFolder with
    | none => none
    | some parent => parent.GetChildIndex bookmarkItem
  else
    match t.deref selectedParentFolder with
    | none => none
    | some folder => some folder.GetChildren.length

/-- `BookmarkHelper::EditBookmarkItem`; `none` stands for the failed assertion, for the
use of a pointer to no live object and for reading an empty `std::optional`. -/
def EditBookmarkItem (env : Collaborators) (bookmarkItem : ItemPtr)
    (bookmarkTree : BookmarkTree) : Option BookmarkTree :=
  let shown := env.showEditDialog bookmarkTree bookmarkItem
  if shown.res = RETURN_OK then
    match shown.selectedParentFolder with
    | none => none
    | some selectedParentFolder =>
      match shown.bookmarkTree.deref bookmarkItem with
      | none => none
      | some item =>
        match editNewIndex shown.bookmarkTree bookmarkItem selectedParentFolder item with
        | none => none
        | some newIndex =>
          shown.bookmarkTree.MoveBookmarkItem bookmarkItem selectedParentFolder newIndex
  else some shown.bookmarkTree

/-! ## Opening bookmarks in new tabs -/

/-- Modelled from the spec: the tab container (`TabContainer.h` is not among the sources),
"a tab container that can open a URL/path in a new tab".  It is kept as the sequence of
paths passed to `CreateNewTab`, oldest first. -/
structure TabContainer where
  created : List wstring
  deriving DecidableEq, Repr

/-- Modelled from the spec: `TabContainer::CreateNewTab`, which opens the path "in a new
tab": the path is appended to the record. -/
def TabContainer.CreateNewTab (tabContainer : TabContainer) (path : wstring) : TabContainer :=
  { created := tabContainer.created ++ [path] }

/-- The loop of `OpenBookmarkItemInNewTab` over the child vector filtered by `IsBookmark`:
a child that is not a bookmark is skipped, a bookmark child gets a tab. -/
def openChildren (t : BookmarkTree) :
    List ItemPtr → TabContainer → Option TabContainer
  | [], tabContainer => some tabContainer
  | child :: rest, tabContainer =>
    match t.deref child with
    | none => none
    | some childItem =>
      if IsBookmark childItem then
        openChildren t rest (tabContainer.CreateNewTab childItem.GetLocation)
      else
        openChildren t rest tabContainer

/-- `BookmarkHelper::OpenBookmarkItemInNewTab`; `none` stands for the use of a child
pointer to no live object. -/
def OpenBookmarkItemInNewTab (t : BookmarkTree) (bookmarkItem : BookmarkItem)
    (tabContainer : TabContainer) : Option TabContainer :=
  if bookmarkItem.IsFolder then
    openChildren t bookmarkItem.GetChildren tabContainer
  else
    some (tabContainer.CreateNewTab bookmarkItem.GetLocation)

/-- The objects a list of pointers designates; `none` when one of them designates no
live object. -/
def derefAll (t : BookmarkTree) : List ItemPtr → Option (List BookmarkItem)
  | [] => some []
  | p :: ps =>
    match t.deref p, derefAll t ps with
    | some item, some items => some (item :: items)
    | _, _ => none

/-- The children of an item, as objects. -/
def childItems (t : BookmarkTree) (bookmarkItem : BookmarkItem) : Option (List BookmarkItem) :=
  derefAll t bookmarkItem.GetChildren

/-! ## A small tree used to evaluate the definitions -/

def time0 : FILETIME := { dwLowDateTime := 0, dwHighDateTime := 0 }

def sampleRoot : BookmarkItem :=
  { type := ItemType.Folder, name := [114, 111, 111, 116], location := none,
    dateCreated := time0, dateModified := time0, parent := none, children := [1, 2, 3] }

def sampleDocs : BookmarkItem :=
  { type := ItemType.Bookmark, name := [100, 111, 99, 115], location := some [67, 58, 92, 100],
    dateCreated := { dwLowDateTime := 5, dwHighDateTime := 1 },
    dateModified := { dwLowDateTime := 9, dwHighDateTime := 1 },
    parent := some 0, children := [] }

def sampleWork : BookmarkItem :=
  { type := ItemType.Folder, name := [119, 111, 114, 107], location := none,
    dateCreated := { dwLowDateTime := 7, dwHighDateTime := 0 },
    dateModified := { dwLowDateTime := 7, dwHighDateTime := 0 },
    parent := some 0, children := [4] }

def sampleTemp : BookmarkItem :=
  { type := ItemType.Bookmark, name := [116, 101, 109, 112], location := some [67, 58, 92, 116],
    dateCreated := { dwLowDateTime := 4294967295, dwHighDateTime := 0 },
    dateModified := { dwLowDateTime := 3, dwHighDateTime := 2 },
    parent := some 0, children := [] }

def sampleSrc : BookmarkItem :=
  { type := ItemType.Bookmark, name := [115, 114, 99], location := some [68, 58, 92, 115],
    dateCreated := time0, dateModified := time0, parent := some 2, children := [] }

/-- A root folder with the children `docs` (bookmark), `work` (folder) and `temp`
(bookmark); `work` holds the bookmark `src`. -/
def sampleItems : List BookmarkItem :=
  [sampleRoot, sampleDocs, sampleWork, sampleTemp, sampleSrc]

def sampleTree : BookmarkTree := { items := sampleItems, calls := [] }

/-- A constructor for the sample collaborators: an item with a location is a bookmark, one
without is a folder; it has no parent and no children yet. -/
def sampleMakeBookmarkItem (_guid : Option wstring) (name : wstring)
    (location : Option wstring) : BookmarkItem :=
  { type := if location.isSome then ItemType.Bookmark else ItemType.Folder,
    name := name, location := location, dateCreated := time0, dateModified := time0,
    parent := none, children := [] }

/-- Sample collaborators whose dialog closes with the result `res` and the selected folder
`selected`, and touches neither the tree nor the item. -/
def sampleEnv (res : Int) (selected : Option ItemPtr) : Collaborators :=
  { displayName := [104, 111, 109, 101],
    directory := [67, 58, 92, 104],
    newBookmarkFolder := [78, 101, 119],
    makeBookmarkItem := sampleMakeBookmarkItem,
    showAddDialog := fun t item =>
      ({ res := res, selectedParentFolder := selected, bookmarkTree := t }, item),
    showEditDialog := fun t _ =>
      { res := res, selectedParentFolder := selected, bookmarkTree := t } }

/-- The bookmark the add workflow builds with the sample collaborators. -/
def sampleHome : BookmarkItem :=
  { type := ItemType.Bookmark, name := [104, 111, 109, 101], location := some [67, 58, 92, 104],
    dateCreated := time0, dateModified := time0, parent := none, children := [] }

/-! ## Lemmas on the platform comparisons -/

theorem split64_lt_iff (ha la hb lb : Nat) (h1 : la < 4294967296) (h2 : lb < 4294967296) :
    ha * 4294967296 + la < hb * 4294967296 + lb ↔ ha < hb ∨ (ha = hb ∧ la < lb) := by
  omega

theorem toUInt64_lt_iff (a b : FILETIME) :
    a.toUInt64 < b.toUInt64 ↔
      a.dwHighDateTime % 2 ^ 32 < b.dwHighDateTime % 2 ^ 32 ∨
      (a.dwHighDateTime % 2 ^ 32 = b.dwHighDateTime % 2 ^ 32 ∧
        a.dwLowDateTime % 2 ^ 32 < b.dwLowDateTime % 2 ^ 32) := by
  unfold FILETIME.toUInt64
  norm_num
  exact split64_lt_iff _ _ _ _ (Nat.mod_lt _ (by norm_num)) (Nat.mod_lt _ (by norm_num))

theorem split64_eq_iff (ha la hb lb : Nat) (h1 : la < 4294967296) (h2 : lb < 4294967296) :
    ha * 4294967296 + la = hb * 4294967296 + lb ↔ ha = hb ∧ la = lb := by
  omega

theorem toUInt64_eq_iff (a b : FILETIME) :
    a.toUInt64 = b.toUInt64 ↔
      a.dwHighDateTime % 2 ^ 32 = b.dwHighDateTime % 2 ^ 32 ∧
        a.dwLowDateTime % 2 ^ 32 = b.dwLowDateTime % 2 ^ 32 := by
  unfold FILETIME.toUInt64
  norm_num
  exact split64_eq_iff _ _ _ _ (Nat.mod_lt _ (by norm_num)) (Nat.mod_lt _ (by norm_num))

theorem CompareFileTime_eq_compare64 (a b : FILETIME) :
    CompareFileTime a b = compare64 a.toUInt64 b.toUInt64 := by
  unfold CompareFileTime compare64
  simp only [toUInt64_lt_iff, toUInt64_eq_iff]
  generalize a.dwHighDateTime % 2 ^ 32 = ha
  generalize b.dwHighDateTime % 2 ^ 32 = hb
  generalize a.dwLowDateTime % 2 ^ 32 = la
  generalize b.dwLowDateTime % 2 ^ 32 = lb
  split_ifs <;> first | rfl | omega

theorem wstring_compare_cons (a b : Nat) (as bs : wstring) :
    wstring_compare (a :: as) (b :: bs) =
      if a < b then -1 else if b < a then 1 else wstring_compare as bs := by
  rw [wstring_compare]

theorem lex_cons_iff (a b : Nat) (as bs : List Nat) :
    List.Lex (fun x y : Nat => x < y) (a :: as) (b :: bs) ↔
      a < b ∨ (a = b ∧ List.Lex (fun x y : Nat => x < y) as bs) := by
  constructor
  · intro h
    cases h with
    | cons h => exact Or.inr ⟨rfl, h⟩
    | rel h => exact Or.inl h
  · rintro (h | ⟨rfl, h⟩)
    · exact List.Lex.rel h
    · exact List.Lex.cons h

theorem wstring_compare_neg_iff (s t : wstring) :
    wstring_compare s t = -1 ↔ List.Lex (fun x y : Nat => x < y) s t := by
  induction s generalizing t with
  | nil =>
    cases t with
    | nil => simp [wstring_compare]
    | cons b bs => simp [wstring_compare, List.Lex.nil]
  | cons a as ih =>
    cases t with
    | nil => simp [wstring_compare]
    | cons b bs =>
      rw [lex_cons_iff, ← ih bs, wstring_compare_cons]
      split_ifs with h1 h2
      · simp [h1]
      · constructor
        · intro h; simp at h
        · rintro (h | ⟨h, _⟩) <;> omega
      · have : a = b := by omega
        simp [this]

theorem wstring_compare_zero_iff (s t : wstring) :
    wstring_compare s t = 0 ↔ s = t := by
  induction s generalizing t with
  | nil =>
    cases t with
    | nil => simp [wstring_compare]
    | cons b bs => simp [wstring_compare]
  | cons a as ih =>
    cases t with
    | nil => simp [wstring_compare]
    | cons b bs =>
      rw [wstring_compare_cons]
      split_ifs with h1 h2
      · simp; omega
      · simp; omega
      · have : a = b := by omega
        simp [this, ih]

theorem wstring_compare_pos_iff (s t : wstring) :
    wstring_compare s t = 1 ↔ List.Lex (fun x y : Nat => x < y) t s := by
  induction s generalizing t with
  | nil =>
    cases t with
    | nil => simp [wstring_compare]
    | cons b bs => simp [wstring_compare]
  | cons a as ih =>
    cases t with
    | nil => simp [wstring_compare, List.Lex.nil]
    | cons b bs =>
      rw [lex_cons_iff, ← ih bs, wstring_compare_cons]
      split_ifs with h1 h2
      · constructor
        · intro h; simp at h
        · rintro (h | ⟨h, _⟩) <;> omega
      · simp [h2]
      · have : a = b := by omega
        simp [this]

theorem wstring_compare_range (s t : wstring) :
    wstring_compare s t = -1 ∨ wstring_compare s t = 0 ∨ wstring_compare s t = 1 := by
  induction s generalizing t with
  | nil => cases t <;> simp [wstring_compare]
  | cons a as ih =>
    cases t with
    | nil => simp [wstring_compare]
    | cons b bs =>
      rw [wstring_compare_cons]
      split_ifs
      · simp
      · simp
      · exact ih bs

theorem wstring_compare_isLexComparison (s t : wstring) :
    IsLexComparison (wstring_compare s t) s t := by
  refine ⟨?_, wstring_compare_zero_iff s t, ?_⟩
  · rw [← wstring_compare_neg_iff]
    rcases wstring_compare_range s t with h | h | h <;> rw [h] <;> decide
  · rw [← wstring_compare_pos_iff]
    rcases wstring_compare_range s t with h | h | h <;> rw [h] <;> decide

/-! ## Lemmas on the object store and the tree operations -/

theorem insertIdx_indexOf_erase (a : ItemPtr) (l : List ItemPtr) (h : a ∈ l) :
    (l.erase a).insertIdx (l.indexOf a) a = l := by
  induction l with
  | nil => simp at h
  | cons b bs ih =>
    by_cases hb : b = a
    · subst hb
      simp [List.insertIdx_zero]
    · have hmem : a ∈ bs := by
        rcases List.mem_cons.mp h with h | h
        · exact absurd h.symm hb
        · exact h
      rw [List.indexOf_cons_ne _ hb, List.erase_cons_tail (by simpa using hb),
        List.insertIdx_succ_cons, ih hmem]

theorem indexOf_le_length_erase (a : ItemPtr) (l : List ItemPtr) (h : a ∈ l) :
    l.indexOf a ≤ (l.erase a).length := by
  have h1 : l.indexOf a < l.length := List.indexOf_lt_length.mpr h
  rw [List.length_erase_of_mem h]
  omega

theorem getElem?_indexOf (a : ItemPtr) (l : List ItemPtr) (h : a ∈ l) :
    l[l.indexOf a]? = some a := by
  induction l with
  | nil => simp at h
  | cons b bs ih =>
    by_cases hb : b = a
    · subst hb
      simp
    · have hmem : a ∈ bs := by
        rcases List.mem_cons.mp h with h | h
        · exact absurd h.symm hb
        · exact h
      rw [List.indexOf_cons_ne _ hb]
      simpa using ih hmem

theorem set_eq_self_of_getElem? (items : List BookmarkItem) (p : ItemPtr) (item : BookmarkItem)
    (h : items[p]? = some item) : items.set p item = items := by
  induction items generalizing p with
  | nil => simp
  | cons x xs ih =>
    cases p with
    | zero =>
      simp at h
      simp [h]
    | succ n =>
      simp at h
      simp [ih n h]

theorem lt_length_of_getElem? (items : List BookmarkItem) (p : ItemPtr) (item : BookmarkItem)
    (h : items[p]? = some item) : p < items.length := by
  rcases List.getElem?_eq_some.mp h with ⟨hlt, _⟩
  exact hlt

theorem unlink_length (items : List BookmarkItem) (b : ItemPtr) (parent : Option ItemPtr) :
    (BookmarkTree.unlink items b parent).length = items.length := by
  unfold BookmarkTree.unlink
  cases parent with
  | none => rfl
  | some old =>
    cases h : items[old]? with
    | none => simp only [h]
    | some f => simp only [h, List.length_set]

theorem unlink_getElem?_ne (items : List BookmarkItem) (b : ItemPtr) (parent : Option ItemPtr)
    (q : ItemPtr) (h : parent ≠ some q) :
    (BookmarkTree.unlink items b parent)[q]? = items[q]? := by
  unfold BookmarkTree.unlink
  cases parent with
  | none => rfl
  | some old =>
    have hne : old ≠ q := fun e => h (by rw [e])
    cases hf : items[old]? with
    | none => simp only [hf]
    | some f => simp only [hf, List.getElem?_set_ne hne]

/-- The modelled move of an item to the position it already has among the children of its
parent leaves the object store as it is. -/
theorem MoveBookmarkItem_same_position (t : BookmarkTree) (b sel : ItemPtr)
    (item folder : BookmarkItem)
    (hItem : t.deref b = some item) (hFolder : t.deref sel = some folder)
    (hParent : item.parent = some sel) (hMem : b ∈ folder.children) :
    t.MoveBookmarkItem b sel (folder.children.indexOf b) =
      some { items := t.items
             calls := t.calls ++
               [TreeCall.MoveBookmarkItem b sel (folder.children.indexOf b)] } := by
  have hItem' : t.items[b]? = some item := hItem
  have hFolder' : t.items[sel]? = some folder := hFolder
  have hsel : sel < t.items.length := lt_length_of_getElem? _ _ _ hFolder'
  have h1 : BookmarkTree.unlink t.items b item.parent =
      t.items.set sel { folder with children := folder.children.erase b } := by
    simp [BookmarkTree.unlink, hParent, hFolder']
  have h2 : (t.items.set sel { folder with children := folder.children.erase b })[sel]? =
      some { folder with children := folder.children.erase b } := by
    simp [hsel]
  unfold BookmarkTree.MoveBookmarkItem
  simp only [hItem, h1, h2]
  rw [if_pos (indexOf_le_length_erase b folder.children hMem)]
  simp only [insertIdx_indexOf_erase b folder.children hMem, List.set_set]
  have h3 : t.items.set sel { folder with children := folder.children } = t.items :=
    set_eq_self_of_getElem? _ _ _ hFolder'
  simp only [h3, hItem']
  have h4 : t.items.set b { item with parent := some sel } = t.items := by
    rw [← hParent]
    exact set_eq_self_of_getElem? _ _ _ hItem'
  rw [h4]

/-- The modelled move of an item to the end of the children of a folder that is not its
parent appends it to them and sets its parent link. -/
theorem MoveBookmarkItem_to_end (t : BookmarkTree) (b sel : ItemPtr)
    (item folder : BookmarkItem)
    (hItem : t.deref b = some item) (hFolder : t.deref sel = some folder)
    (hParent : item.parent ≠ some sel) :
    ∃ result folder2 moved,
      t.MoveBookmarkItem b sel folder.children.length = some result ∧
      result.calls = t.calls ++ [TreeCall.MoveBookmarkItem b sel folder.children.length] ∧
      result.deref sel = some folder2 ∧
      folder2.children = folder.children ++ [b] ∧
      result.deref b = some moved ∧
      moved.parent = some sel := by
  have hItem' : t.items[b]? = some item := hItem
  have hFolder' : t.items[sel]? = some folder := hFolder
  have hsel : sel < t.items.length := lt_length_of_getElem? _ _ _ hFolder'
  have hb : b < t.items.length := lt_length_of_getElem? _ _ _ hItem'
  have h1 : (BookmarkTree.unlink t.items b item.parent)[sel]? = some folder := by
    rw [unlink_getElem?_ne _ _ _ _ hParent]; exact hFolder'
  have hlen : (BookmarkTree.unlink t.items b item.parent).length = t.items.length :=
    unlink_length _ _ _
  have hb2 : b < ((BookmarkTree.unlink t.items b item.parent).set sel
      { folder with children := folder.children.insertIdx folder.children.length b }).length := by
    rw [List.length_set, hlen]; exact hb
  obtain ⟨moved0, hmoved0⟩ : ∃ m, ((BookmarkTree.unlink t.items b item.parent).set sel
      { folder with children := folder.children.insertIdx folder.children.length b })[b]? =
        some m := ⟨_, List.getElem?_eq_getElem hb2⟩
  have hMove : t.MoveBookmarkItem b sel folder.children.length =
      some { items := ((BookmarkTree.unlink t.items b item.parent).set sel
                { folder with children :=
                    folder.children.insertIdx folder.children.length b }).set b
                { moved0 with parent := some sel }
             calls := t.calls ++
               [TreeCall.MoveBookmarkItem b sel folder.children.length] } := by
    unfold BookmarkTree.MoveBookmarkItem
    simp only [hItem, h1, le_refl, if_true, hmoved0]
  rw [hMove]
  by_cases hbs : b = sel
  · subst hbs
    have hm : moved0 =
        { folder with children := folder.children.insertIdx folder.children.length b } := by
      have := hmoved0
      rw [List.getElem?_set_self (by rw [hlen]; exact hb)] at this
      exact (Option.some.inj this).symm
    refine ⟨_, { moved0 with parent := some b }, { moved0 with parent := some b },
      rfl, rfl, ?_, ?_, ?_, rfl⟩
    · simp only [BookmarkTree.deref]
      rw [List.getElem?_set_self hb2]
    · rw [hm]
      simp [List.insertIdx_length_self]
    · simp only [BookmarkTree.deref]
      rw [List.getElem?_set_self hb2]
  · refine ⟨_, { folder with children := folder.children.insertIdx folder.children.length b },
      { moved0 with parent := some sel }, rfl, rfl, ?_, ?_, ?_, rfl⟩
    · simp only [BookmarkTree.deref]
      rw [List.getElem?_set_ne hbs, List.getElem?_set_self (by rw [hlen]; exact hsel)]
    · simp [List.insertIdx_length_self]
    · simp only [BookmarkTree.deref]
      rw [List.getElem?_set_self hb2]

/-- The modelled addition of an item at the end of the children of a folder appends it to
them and stores it with its parent link set. -/
theorem AddBookmarkItem_at_end (t : BookmarkTree) (sel : ItemPtr) (newItem folder : BookmarkItem)
    (hFolder : t.deref sel = some folder) :
    ∃ result folder2,
      t.AddBookmarkItem sel newItem folder.children.length = some result ∧
      result.calls = t.calls ++ [TreeCall.AddBookmarkItem sel newItem folder.children.length] ∧
      result.deref sel = some folder2 ∧
      folder2.children = folder.children ++ [t.items.length] ∧
      result.deref t.items.length = some { newItem with parent := some sel } := by
  have hFolder' : t.items[sel]? = some folder := hFolder
  have hsel : sel < t.items.length := lt_length_of_getElem? _ _ _ hFolder'
  unfold BookmarkTree.AddBookmarkItem
  simp only [hFolder, le_refl, if_true]
  refine ⟨_,
    { folder with children := folder.children.insertIdx folder.children.length t.items.length },
    rfl, rfl, ?_, ?_, ?_⟩
  · simp only [BookmarkTree.deref]
    rw [List.getElem?_append_left (by rw [List.length_set]; exact hsel),
      List.getElem?_set_self hsel]
  · simp [List.insertIdx_length_self]
  · simp only [BookmarkTree.deref]
    rw [List.getElem?_append_right (by rw [List.length_set])]
    simp

/-! ## The comparison policy -/

/-- C1: `BookmarkHelper::Sort` is type-first: in every sort mode a folder compared with a
bookmark gives `-1` and a bookmark compared with a folder gives `1`, whatever the names,
locations and timestamps of the two items. -/
theorem Sort_type_first (SortMode : SortMode_t) (firstItem secondItem : BookmarkItem) :
    (firstItem.GetType = ItemType.Folder → secondItem.GetType = ItemType.Bookmark →
      Sort_ SortMode firstItem secondItem = -1) ∧
    (firstItem.GetType = ItemType.Bookmark → secondItem.GetType = ItemType.Folder →
      Sort_ SortMode firstItem secondItem = 1) := by
  constructor
  · intro h1 h2
    simp [Sort_, h1, h2]
  · intro h1 h2
    simp [Sort_, h1, h2]

/-- Evaluation of C1 on a folder named `work` and a bookmark named `docs`: the folder
sorts first although its name is the greater one. -/
theorem Sort_type_first_witness :
    Sort_ SortMode_t.SM_NAME sampleWork sampleDocs = -1 ∧
    Sort_ SortMode_t.SM_NAME sampleDocs sampleWork = 1 :=
  ⟨(Sort_type_first SortMode_t.SM_NAME sampleWork sampleDocs).1 rfl rfl,
   (Sort_type_first SortMode_t.SM_NAME sampleDocs sampleWork).2 rfl rfl⟩

/-- C2: for two items of the same type `BookmarkHelper::Sort` returns the comparison of
the key the mode selects: the lexicographic comparison of the names in `SM_NAME`; in
`SM_LOCATION` the lexicographic comparison of the locations for two bookmarks and `0` for
two folders; the three-way comparison (`-1`, `0`, `1`) of the creation timestamps, as
64-bit values, in `SM_DATE_ADDED`, and of the modification timestamps in
`SM_DATE_MODIFIED`. -/
theorem Sort_same_type (firstItem secondItem : BookmarkItem)
    (hType : firstItem.GetType = secondItem.GetType) :
    (Sort_ SortMode_t.SM_NAME firstItem secondItem =
        wstring_compare firstItem.GetName secondItem.GetName ∧
      IsLexComparison (Sort_ SortMode_t.SM_NAME firstItem secondItem)
        firstItem.GetName secondItem.GetName) ∧
    (firstItem.GetType = ItemType.Bookmark →
      Sort_ SortMode_t.SM_LOCATION firstItem secondItem =
          wstring_compare firstItem.GetLocation secondItem.GetLocation ∧
        IsLexComparison (Sort_ SortMode_t.SM_LOCATION firstItem secondItem)
          firstItem.GetLocation secondItem.GetLocation) ∧
    (firstItem.GetType = ItemType.Folder →
      Sort_ SortMode_t.SM_LOCATION firstItem secondItem = 0) ∧
    Sort_ SortMode_t.SM_DATE_ADDED firstItem secondItem =
      compare64 firstItem.GetDateCreated.toUInt64 secondItem.GetDateCreated.toUInt64 ∧
    Sort_ SortMode_t.SM_DATE_MODIFIED firstItem secondItem =
      compare64 firstItem.GetDateModified.toUInt64 secondItem.GetDateModified.toUInt64 := by
  have hSort : ∀ m, Sort_ m firstItem secondItem =
      match m with
      | SortMode_t.SM_NAME => SortByName firstItem secondItem
      | SortMode_t.SM_LOCATION => SortByLocation firstItem secondItem
      | SortMode_t.SM_DATE_ADDED => SortByDateAdded firstItem secondItem
      | SortMode_t.SM_DATE_MODIFIED => SortByDateModified firstItem secondItem := by
    intro m
    unfold Sort_
    cases hf : firstItem.GetType <;> rw [hf] at hType <;> simp [← hType]
  have hName : Sort_ SortMode_t.SM_NAME firstItem secondItem =
      wstring_compare firstItem.GetName secondItem.GetName := by
    rw [hSort]; rfl
  refine ⟨⟨hName, ?_⟩, ?_, ?_, ?_, ?_⟩
  · rw [hName]; exact wstring_compare_isLexComparison _ _
  · intro hB
    have hLoc : Sort_ SortMode_t.SM_LOCATION firstItem secondItem =
        wstring_compare firstItem.GetLocation secondItem.GetLocation := by
      rw [hSort]
      simp [SortByLocation, ← hType, hB]
    refine ⟨hLoc, ?_⟩
    rw [hLoc]; exact wstring_compare_isLexComparison _ _
  · intro hF
    rw [hSort]
    simp [SortByLocation, ← hType, hF]
  · rw [hSort]
    exact CompareFileTime_eq_compare64 _ _
  · rw [hSort]
    exact CompareFileTime_eq_compare64 _ _

/-- Evaluation of C2 on the two bookmarks `docs` and `temp`: `docs` was created later
(its high half is greater although its low half is smaller), so `SM_DATE_ADDED` gives `1`. -/
theorem Sort_same_type_witness :
    Sort_ SortMode_t.SM_DATE_ADDED sampleDocs sampleTemp = 1 ∧
    Sort_ SortMode_t.SM_DATE_ADDED sampleDocs sampleTemp =
      compare64 sampleDocs.GetDateCreated.toUInt64 sampleTemp.GetDateCreated.toUInt64 :=
  ⟨by decide, (Sort_same_type sampleDocs sampleTemp rfl).2.2.2.1⟩

/-! ## Opening in new tabs -/

theorem derefAll_cons_eq_some (t : BookmarkTree) (p : ItemPtr) (ps : List ItemPtr)
    (cs : List BookmarkItem) (h : derefAll t (p :: ps) = some cs) :
    ∃ c rest, t.deref p = some c ∧ derefAll t ps = some rest ∧ cs = c :: rest := by
  rw [derefAll] at h
  cases hp : t.deref p with
  | none => simp [hp] at h
  | some c =>
    cases hr : derefAll t ps with
    | none => simp [hp, hr] at h
    | some rest =>
      simp [hp, hr] at h
      exact ⟨c, rest, rfl, rfl, h.symm⟩

theorem openChildren_eq (t : BookmarkTree) (ptrs : List ItemPtr) :
    ∀ (cs : List BookmarkItem) (tabContainer : TabContainer),
      derefAll t ptrs = some cs →
      openChildren t ptrs tabContainer =
        some { created := tabContainer.created ++
          (cs.filter BookmarkItem.IsBookmark).map BookmarkItem.GetLocation } := by
  induction ptrs with
  | nil =>
    intro cs tabContainer h
    simp [derefAll] at h
    subst h
    simp [openChildren]
  | cons p ps ih =>
    intro cs tabContainer h
    obtain ⟨c, rest, hp, hr, rfl⟩ := derefAll_cons_eq_some t p ps cs h
    rw [openChildren]
    simp only [hp]
    by_cases hb : c.IsBookmark = true
    · simp [IsBookmark, hb, ih rest _ hr, TabContainer.CreateNewTab]
    · simp [IsBookmark, hb, ih rest _ hr]

/-- C4: applied to an item that is a bookmark, `OpenBookmarkItemInNewTab` makes exactly
one `CreateNewTab` call, and the argument of that call is the location of the item. -/
theorem OpenBookmarkItemInNewTab_bookmark (t : BookmarkTree) (bookmarkItem : BookmarkItem)
    (tabContainer : TabContainer) (hBookmark : bookmarkItem.IsBookmark = true) :
    OpenBookmarkItemInNewTab t bookmarkItem tabContainer =
      some { created := tabContainer.created ++ [bookmarkItem.GetLocation] } := by
  have hNotFolder : bookmarkItem.IsFolder = false := by
    simp [BookmarkItem.IsBookmark] at hBookmark
    simp [BookmarkItem.IsFolder, hBookmark]
  simp [OpenBookmarkItemInNewTab, hNotFolder, TabContainer.CreateNewTab]

/-- Evaluation of C4 on the bookmark `docs`, with no tab opened before. -/
theorem OpenBookmarkItemInNewTab_bookmark_witness :
    sampleDocs.IsBookmark = true ∧
    OpenBookmarkItemInNewTab sampleTree sampleDocs { created := [] } =
      some { created := [[67, 58, 92, 100]] } :=
  ⟨rfl, OpenBookmarkItemInNewTab_bookmark sampleTree sampleDocs { created := [] } rfl⟩

/-- C3, as stated, fails: the root folder of the sample tree has three children, and
`OpenBookmarkItemInNewTab` makes two `CreateNewTab` calls for it, none for the child
folder `work`. -/
theorem OpenBookmarkItemInNewTab_folder_not_every_child :
    sampleRoot.IsFolder = true ∧
    sampleRoot.GetChildren.length = 3 ∧
    OpenBookmarkItemInNewTab sampleTree sampleRoot { created := [] } =
      some { created := [[67, 58, 92, 100], [67, 58, 92, 116]] } ∧
    List.length [[67, 58, 92, 100], [67, 58, 92, 116]] ≠ sampleRoot.GetChildren.length := by
  decide

/-- C3, amended: applied to a folder whose children are live objects,
`OpenBookmarkItemInNewTab` makes one `CreateNewTab` call per child of the folder that is
a bookmark. -/
theorem OpenBookmarkItemInNewTab_folder_count (t : BookmarkTree) (bookmarkItem : BookmarkItem)
    (tabContainer : TabContainer) (children : List BookmarkItem)
    (hFolder : bookmarkItem.IsFolder = true)
    (hChildren : childItems t bookmarkItem = some children) :
    ∃ result, OpenBookmarkItemInNewTab t bookmarkItem tabContainer = some result ∧
      result.created.length =
        tabContainer.created.length + children.countP BookmarkItem.IsBookmark := by
  refine ⟨{ created := tabContainer.created ++
    (children.filter BookmarkItem.IsBookmark).map BookmarkItem.GetLocation }, ?_, ?_⟩
  · simp only [OpenBookmarkItemInNewTab, hFolder, if_true]
    exact openChildren_eq t _ children tabContainer hChildren
  · simp [List.countP_eq_length_filter]

/-- Evaluation of the amended C3 on the root folder of the sample tree: two of its three
children are bookmarks. -/
theorem OpenBookmarkItemInNewTab_folder_count_witness :
    ∃ result, OpenBookmarkItemInNewTab sampleTree sampleRoot { created := [] } = some result ∧
      result.created.length = 0 + [sampleDocs, sampleWork, sampleTemp].countP BookmarkItem.IsBookmark :=
  OpenBookmarkItemInNewTab_folder_count sampleTree sampleRoot { created := [] }
    [sampleDocs, sampleWork, sampleTemp] rfl rfl

/-- C8: applied to a folder whose children are live objects, `OpenBookmarkItemInNewTab`
passes to `CreateNewTab` the locations of the direct children that are bookmarks, in child
order, and nothing else: a child folder gets no tab and its own children are not visited,
and a folder without bookmark children opens no tab. -/
theorem OpenBookmarkItemInNewTab_folder (t : BookmarkTree) (bookmarkItem : BookmarkItem)
    (tabContainer : TabContainer) (children : List BookmarkItem)
    (hFolder : bookmarkItem.IsFolder = true)
    (hChildren : childItems t bookmarkItem = some children) :
    OpenBookmarkItemInNewTab t bookmarkItem tabContainer =
        some { created := tabContainer.created ++
          (children.filter BookmarkItem.IsBookmark).map BookmarkItem.GetLocation } ∧
    ((∀ child ∈ children, child.IsBookmark = false) →
      OpenBookmarkItemInNewTab t bookmarkItem tabContainer = some tabContainer) := by
  have hOpen : OpenBookmarkItemInNewTab t bookmarkItem tabContainer =
      some { created := tabContainer.created ++
        (children.filter BookmarkItem.IsBookmark).map BookmarkItem.GetLocation } := by
    simp only [OpenBookmarkItemInNewTab, hFolder, if_true]
    exact openChildren_eq t _ children tabContainer hChildren
  refine ⟨hOpen, ?_⟩
  intro hNone
  rw [hOpen]
  have hEmpty : children.filter BookmarkItem.IsBookmark = [] := by
    rw [List.filter_eq_nil_iff]
    intro child hc
    simp [hNone child hc]
  simp [hEmpty]

/-- Evaluation of C8 on the root folder of the sample tree: tabs are opened for `docs` and
`temp`, in that order; the folder `work` gets none, nor does the bookmark `src` inside it. -/
theorem OpenBookmarkItemInNewTab_folder_witness :
    OpenBookmarkItemInNewTab sampleTree sampleRoot { created := [[1]] } =
      some { created := [[1], [67, 58, 92, 100], [67, 58, 92, 116]] } :=
  (OpenBookmarkItemInNewTab_folder sampleTree sampleRoot { created := [[1]] }
    [sampleDocs, sampleWork, sampleTemp] rfl rfl).1

/-! ## The add and edit workflows -/

/-- C5: when the dialog returns `RETURN_OK` with a selected parent folder,
`BookmarkHelper::AddBookmarkItem` calls the add operation of the tree once, with that
folder, the new item and an index equal to the number of children the folder has; the new
item becomes the last child of the folder and every child it had keeps its index. -/
theorem AddBookmarkItem_appends_to_selected_folder (env : Collaborators)
    (bookmarkTree : BookmarkTree) (type : ItemType) (shown : DialogOutcome × BookmarkItem)
    (selected : ItemPtr) (folder : BookmarkItem)
    (hShown : env.showAddDialog bookmarkTree (newBookmarkItem env type) = shown)
    (hOk : shown.1.res = RETURN_OK)
    (hSelected : shown.1.selectedParentFolder = some selected)
    (hFolder : shown.1.bookmarkTree.deref selected = some folder) :
    ∃ result folder2,
      AddBookmarkItem env bookmarkTree type = some result ∧
      result.calls = shown.1.bookmarkTree.calls ++
        [TreeCall.AddBookmarkItem selected shown.2 folder.GetChildren.length] ∧
      result.deref selected = some folder2 ∧
      folder2.GetChildren = folder.GetChildren ++ [shown.1.bookmarkTree.items.length] ∧
      result.deref shown.1.bookmarkTree.items.length =
        some { shown.2 with parent := some selected } ∧
      (∀ (i : Nat) (child : ItemPtr), folder.GetChildren[i]? = some child →
        folder2.GetChildren[i]? = some child) := by
  obtain ⟨result, folder2, hAdd, hCalls, hDeref, hChildren, hNew⟩ :=
    AddBookmarkItem_at_end shown.1.bookmarkTree selected shown.2 folder hFolder
  refine ⟨result, folder2, ?_, hCalls, hDeref, hChildren, hNew, ?_⟩
  · unfold AddBookmarkItem
    simp only [hShown, hOk, if_true, hSelected, hFolder]
    exact hAdd
  · intro i child hi
    have hlt : i < folder.children.length := by
      rcases List.getElem?_eq_some.mp hi with ⟨hlt, _⟩
      exact hlt
    show folder2.children[i]? = some child
    rw [hChildren, List.getElem?_append_left hlt]
    exact hi

/-- Evaluation of C5 on the sample tree: the dialog selects the folder `work` (pointer 2,
one child); the new bookmark is stored at pointer 5 and becomes the second child. -/
theorem AddBookmarkItem_appends_to_selected_folder_witness :
    ∃ result folder2,
      AddBookmarkItem (sampleEnv RETURN_OK (some 2)) sampleTree ItemType.Bookmark =
        some result ∧
      result.calls = [] ++ [TreeCall.AddBookmarkItem 2 sampleHome 1] ∧
      result.deref 2 = some folder2 ∧
      folder2.GetChildren = [4] ++ [5] ∧
      result.deref 5 = some { sampleHome with parent := some 2 } ∧
      (∀ (i : Nat) (child : ItemPtr), sampleWork.GetChildren[i]? = some child →
        folder2.GetChildren[i]? = some child) :=
  AddBookmarkItem_appends_to_selected_folder (sampleEnv RETURN_OK (some 2)) sampleTree
    ItemType.Bookmark
    ({ res := RETURN_OK, selectedParentFolder := some 2, bookmarkTree := sampleTree }, sampleHome)
    2 sampleWork rfl rfl rfl rfl

/-- C6: when the dialog returns `RETURN_OK`, `BookmarkHelper::EditBookmarkItem` calls the
move operation of the tree once, with the item and the selected folder.  If the selected
folder is the parent of the item, the index passed is the index the item has among the
children of that folder, and the item keeps its position; otherwise the index passed is
the number of children of the selected folder, and the item becomes its last child. -/
theorem EditBookmarkItem_moves_to_selected_folder (env : Collaborators)
    (bookmarkItem : ItemPtr) (bookmarkTree : BookmarkTree) (shown : DialogOutcome)
    (selected : ItemPtr) (item folder : BookmarkItem)
    (hShown : env.showEditDialog bookmarkTree bookmarkItem = shown)
    (hOk : shown.res = RETURN_OK)
    (hSelected : shown.selectedParentFolder = some selected)
    (hItem : shown.bookmarkTree.deref bookmarkItem = some item)
    (hFolder : shown.bookmarkTree.deref selected = some folder) :
    (item.GetParent = some selected → bookmarkItem ∈ folder.GetChildren →
      folder.GetChildren[folder.GetChildren.indexOf bookmarkItem]? = some bookmarkItem ∧
      EditBookmarkItem env bookmarkItem bookmarkTree =
        some ⟨shown.bookmarkTree.items,
          shown.bookmarkTree.calls ++
            [TreeCall.MoveBookmarkItem bookmarkItem selected
              (folder.GetChildren.indexOf bookmarkItem)]⟩) ∧
    (item.GetParent ≠ some selected →
      ∃ result folder2 moved,
        EditBookmarkItem env bookmarkItem bookmarkTree = some result ∧
        result.calls = shown.bookmarkTree.calls ++
          [TreeCall.MoveBookmarkItem bookmarkItem selected folder.GetChildren.length] ∧
        result.deref selected = some folder2 ∧
        folder2.GetChildren = folder.GetChildren ++ [bookmarkItem] ∧
        result.deref bookmarkItem = some moved ∧
        moved.GetParent = some selected) := by
  constructor
  · intro hParent hMem
    refine ⟨getElem?_indexOf bookmarkItem folder.children hMem, ?_⟩
    have hIndex : editNewIndex shown.bookmarkTree bookmarkItem selected item =
        some (folder.children.indexOf bookmarkItem) := by
      unfold editNewIndex
      rw [if_pos hParent.symm]
      simp only [hFolder, BookmarkItem.GetChildIndex]
      have hlt : List.indexOf bookmarkItem folder.children < folder.children.length :=
        List.indexOf_lt_length.mpr hMem
      rw [if_pos hlt]
    unfold EditBookmarkItem
    simp only [hShown, hOk, if_true, hSelected, hItem, hIndex]
    exact MoveBookmarkItem_same_position shown.bookmarkTree bookmarkItem selected item folder
      hItem hFolder hParent hMem
  · intro hParent
    obtain ⟨result, folder2, moved, hMove, hCalls, hDeref, hChildren, hMoved, hLink⟩ :=
      MoveBookmarkItem_to_end shown.bookmarkTree bookmarkItem selected item folder
        hItem hFolder hParent
    refine ⟨result, folder2, moved, ?_, hCalls, hDeref, hChildren, hMoved, hLink⟩
    have hIndex : editNewIndex shown.bookmarkTree bookmarkItem selected item =
        some folder.children.length := by
      unfold editNewIndex
      rw [if_neg (fun h => hParent h.symm)]
      simp only [hFolder, BookmarkItem.GetChildren]
    unfold EditBookmarkItem
    simp only [hShown, hOk, if_true, hSelected, hItem, hIndex]
    exact hMove

/-- Evaluation of C6 on the bookmark `temp` of the sample tree (pointer 3, third child of
the root): with the root selected the move is to index 2 and the store is unchanged; with
the folder `work` selected the move is to index 1, the end of its children. -/
theorem EditBookmarkItem_moves_to_selected_folder_witness :
    (sampleRoot.GetChildren[sampleRoot.GetChildren.indexOf 3]? = some 3 ∧
      EditBookmarkItem (sampleEnv RETURN_OK (some 0)) 3 sampleTree =
        some ⟨sampleItems, [] ++ [TreeCall.MoveBookmarkItem 3 0 2]⟩) ∧
    (∃ result folder2 moved,
      EditBookmarkItem (sampleEnv RETURN_OK (some 2)) 3 sampleTree = some result ∧
      result.calls = [] ++ [TreeCall.MoveBookmarkItem 3 2 1] ∧
      result.deref 2 = some folder2 ∧
      folder2.GetChildren = [4] ++ [3] ∧
      result.deref 3 = some moved ∧
      moved.GetParent = some 2) :=
  ⟨(EditBookmarkItem_moves_to_selected_folder (sampleEnv RETURN_OK (some 0)) 3 sampleTree
      { res := RETURN_OK, selectedParentFolder := some 0, bookmarkTree := sampleTree }
      0 sampleTemp sampleRoot rfl rfl rfl rfl rfl).1 rfl (by decide),
   (EditBookmarkItem_moves_to_selected_folder (sampleEnv RETURN_OK (some 2)) 3 sampleTree
      { res := RETURN_OK, selectedParentFolder := some 2, bookmarkTree := sampleTree }
      2 sampleTemp sampleWork rfl rfl rfl rfl rfl).2 (by decide)⟩

/-- C7: when the dialog returns anything other than `RETURN_OK`, neither
`BookmarkHelper::AddBookmarkItem` nor `BookmarkHelper::EditBookmarkItem` calls the add or
the move operation of the tree: each returns the tree as the dialog left it, so the
hierarchy is unchanged by the workflow, and is the original one when the dialog did not
touch it. -/
theorem workflows_commit_only_on_ok (env : Collaborators) (bookmarkTree : BookmarkTree)
    (type : ItemType) (bookmarkItem : ItemPtr) :
    (∀ shown, env.showAddDialog bookmarkTree (newBookmarkItem env type) = shown →
      shown.1.res ≠ RETURN_OK →
      AddBookmarkItem env bookmarkTree type = some shown.1.bookmarkTree ∧
      (shown.1.bookmarkTree = bookmarkTree →
        AddBookmarkItem env bookmarkTree type = some bookmarkTree)) ∧
    (∀ shown, env.showEditDialog bookmarkTree bookmarkItem = shown →
      shown.res ≠ RETURN_OK →
      EditBookmarkItem env bookmarkItem bookmarkTree = some shown.bookmarkTree ∧
      (shown.bookmarkTree = bookmarkTree →
        EditBookmarkItem env bookmarkItem bookmarkTree = some bookmarkTree)) := by
  constructor
  · intro shown hShown hRes
    have hAdd : AddBookmarkItem env bookmarkTree type = some shown.1.bookmarkTree := by
      unfold AddBookmarkItem
      simp only [hShown, if_neg hRes]
    exact ⟨hAdd, fun h => by rw [hAdd, h]⟩
  · intro shown hShown hRes
    have hEdit : EditBookmarkItem env bookmarkItem bookmarkTree = some shown.bookmarkTree := by
      unfold EditBookmarkItem
      simp only [hShown, if_neg hRes]
    exact ⟨hEdit, fun h => by rw [hEdit, h]⟩

/-- Evaluation of C7 on the sample tree with a dialog that is cancelled (result `0`) after
a folder was selected: both workflows return the sample tree, with no call recorded. -/
theorem workflows_commit_only_on_ok_witness :
    AddBookmarkItem (sampleEnv 0 (some 2)) sampleTree ItemType.Folder = some sampleTree ∧
    EditBookmarkItem (sampleEnv 0 (some 2)) 3 sampleTree = some sampleTree :=
  ⟨((workflows_commit_only_on_ok (sampleEnv 0 (some 2)) sampleTree ItemType.Folder 3).1
      _ rfl (by decide)).2 rfl,
   ((workflows_commit_only_on_ok (sampleEnv 0 (some 2)) sampleTree ItemType.Folder 3).2
      _ rfl (by decide)).2 rfl⟩

end BookmarkHelper
